import Mathlib

/-!
Verification of the Ballista filter operator
(src/rust/ballista/src/execution/operators/filter.rs).

The file embeds the filter operator shallowly in Lean. The data model
(schemas, columnar values, batches), the expression compiler/evaluator and
the arrow compute kernels are declared in other modules of the repository
or in the external arrow crate; where they are not part of the given
source, the definitions below are modelled from the specification and say
so in their doc comment. Everything in the filter operator itself
(FilterExec, FilterIter, apply_filter) is translated directly from
filter.rs.
-/

set_option autoImplicit false

namespace Ballista

/-- Modelled from the spec: the error type of the crate. The source builds
errors with ballista_error(message); one general constructor carrying the
message is enough to track errors and their identity. -/
inductive BallistaError where
  | general (msg : String)
deriving DecidableEq, Repr

/-- Modelled from the spec: a field type of a schema. Two concrete types
are enough for the batches the filter operator handles. -/
inductive DataType where
  | int64
  | boolean
deriving DecidableEq, Repr

/-- Modelled from the spec: a named, typed field of a schema. -/
structure Field where
  name : String
  dataType : DataType
deriving DecidableEq, Repr

/-- Modelled from the spec: a schema is an ordered sequence of named,
typed fields. -/
abbrev Schema := List Field

/-- Modelled from the spec: a single scalar value. -/
inductive ScalarValue where
  | int (i : Int)
  | bool (b : Bool)
deriving DecidableEq, Repr

/-- Modelled from the spec: a materialized, typed arrow array (the
external columnar kernel library array type). -/
inductive ArrowArray where
  | intArr (vs : List Int)
  | boolArr (vs : List Bool)
deriving DecidableEq, Repr

/-- Length of an arrow array. -/
def ArrowArray.len : ArrowArray → Nat
  | .intArr vs => vs.length
  | .boolArr vs => vs.length

/-- Elements of an arrow array as scalar values, for stating
position-wise properties. -/
def ArrowArray.toList : ArrowArray → List ScalarValue
  | .intArr vs => vs.map ScalarValue.int
  | .boolArr vs => vs.map ScalarValue.bool

/-- Modelled from the spec: a ColumnarValue is a tagged union over a
materialized array (one value per row) and a scalar broadcast logically
over all rows; the scalar variant carries the row count it stands for. -/
inductive ColumnarValue where
  | Columnar (arr : ArrowArray)
  | Scalar (v : ScalarValue) (n : Nat)
deriving DecidableEq, Repr

instance : Inhabited ColumnarValue := ⟨.Columnar (.intArr [])⟩

/-- Logical length of a columnar value: array length, or the broadcast
row count of a scalar. -/
def ColumnarValue.len : ColumnarValue → Nat
  | .Columnar a => a.len
  | .Scalar _ n => n

/-- Modelled from the spec: ColumnarValue.to_arrow materializes the value
as an arrow array; a scalar is broadcast to an array of its row count. -/
def ColumnarValue.to_arrow : ColumnarValue → Except BallistaError ArrowArray
  | .Columnar a => .ok a
  | .Scalar (.int i) n => .ok (.intArr (List.replicate n i))
  | .Scalar (.bool b) n => .ok (.boolArr (List.replicate n b))

/-- Modelled from the spec: a batch is an ordered sequence of columnar
values paired with a schema. -/
structure ColumnarBatch where
  columns : List ColumnarValue
  schema : Schema
deriving DecidableEq, Repr

/-- Modelled from the spec: batch constructor pairing column values with a
schema, as used at the end of apply_filter. -/
def ColumnarBatch.from_values_and_schema (values : List ColumnarValue) (schema : Schema) :
    ColumnarBatch :=
  { columns := values, schema := schema }

/-- Number of columns of a batch. -/
def ColumnarBatch.num_columns (b : ColumnarBatch) : Nat :=
  b.columns.length

/-- Column accessor (the source indexes columns by position). -/
def ColumnarBatch.column (b : ColumnarBatch) (i : Nat) : ColumnarValue :=
  b.columns.getD i default

/-- Modelled from the spec: the row count of a batch, the common length of
its columns (0 for a batch with no columns). -/
def ColumnarBatch.num_rows (b : ColumnarBatch) : Nat :=
  match b.columns with
  | [] => 0
  | c :: _ => c.len

/-- The batch invariant of the data model: every column has length equal
to the row count of the batch. -/
def ColumnarBatch.wellFormed (b : ColumnarBatch) : Prop :=
  ∀ c ∈ b.columns, c.len = b.num_rows

instance (b : ColumnarBatch) : Decidable b.wellFormed := by
  unfold ColumnarBatch.wellFormed
  infer_instance

/-- Modelled from the spec: the cast primitive used by the cast_array!
macro, validating that an evaluated mask array is boolean-typed; a cast
failure is reported as an error. -/
def cast_array_boolean : ArrowArray → Except BallistaError (List Bool)
  | .boolArr bs => .ok bs
  | .intArr _ => .error (.general "cast failed: expected BooleanArray")

/-- Keep the elements of a list selected by a boolean mask, position-wise,
preserving order (the semantics of the arrow boolean filter kernel). -/
def maskFilter {α : Type} : List α → List Bool → List α
  | _, [] => []
  | [], _ :: _ => []
  | x :: xs, b :: bs => if b then x :: maskFilter xs bs else maskFilter xs bs

/-- Apply a boolean mask to a typed arrow array. -/
def filterByMask : ArrowArray → List Bool → ArrowArray
  | .intArr vs, m => .intArr (maskFilter vs m)
  | .boolArr vs, m => .boolArr (maskFilter vs m)

/-- Modelled from the spec: the arrow compute filter kernel; given a typed
array and a boolean mask of equal length it returns a new array containing
only the selected elements, preserving element order; unequal lengths are
an input-contract violation reported as an error. -/
def arrow_compute_filter (a : ArrowArray) (mask : List Bool) :
    Except BallistaError ArrowArray :=
  if a.len = mask.length then .ok (filterByMask a mask)
  else .error (.general "filter kernel: array and mask have different lengths")

/-- The per-column loop of apply_filter: each column is materialized with
to_arrow and filtered with the one predicate mask, and the result is
wrapped as a Columnar value. -/
def filterColumns (cols : List ColumnarValue) (predicate : List Bool) :
    Except BallistaError (List ColumnarValue) :=
  match cols with
  | [] => .ok []
  | c :: rest => do
    let a ← c.to_arrow
    let fa ← arrow_compute_filter a predicate
    let others ← filterColumns rest predicate
    .ok (ColumnarValue.Columnar fa :: others)

/-- Translation of apply_filter from filter.rs: materialize the bitmask,
cast it to a boolean array, filter every column of the batch with that one
mask, and build a new batch from the filtered columns and the given
schema. -/
def apply_filter (batch : ColumnarBatch) (bitmask : ColumnarValue) (schema : Schema) :
    Except BallistaError ColumnarBatch := do
  let p ← bitmask.to_arrow
  let predicate ← cast_array_boolean p
  let filtered_arrays ← filterColumns batch.columns predicate
  .ok (ColumnarBatch.from_values_and_schema filtered_arrays schema)

/-- Modelled from the spec: the uncompiled predicate AST owned by the
plan node (the logical-plan Expr type). Column references by name, typed
literals and an integer comparison are enough for the predicates the
specification discusses. -/
inductive Expr where
  | column (name : String)
  | literal (v : ScalarValue)
  | gt (l r : Expr)
deriving DecidableEq, Repr

/-- Modelled from the spec: a compiled, schema-bound expression; column
names are resolved to column indices at compile time. -/
inductive CompiledExpr where
  | col (i : Nat)
  | lit (v : ScalarValue)
  | gt (l r : CompiledExpr)
deriving DecidableEq, Repr

/-- Index of the field with the given name in a schema, if any. -/
def findColumn (schema : Schema) (name : String) : Option Nat :=
  schema.findIdx? (fun f => f.name = name)

/-- Modelled from the spec: compile_expression binds a predicate AST to a
concrete schema, a pure function of the pair; it fails with a
name-resolution error when a referenced column is absent from the
schema. -/
def compile_expression : Expr → Schema → Except BallistaError CompiledExpr
  | .column n, s =>
    match findColumn s n with
    | some i => .ok (.col i)
    | none => .error (.general ("compile error: no column named " ++ n))
  | .literal v, _ => .ok (.lit v)
  | .gt l r, s => do
    let cl ← compile_expression l s
    let cr ← compile_expression r s
    .ok (.gt cl cr)

/-- Modelled from the spec: elementwise integer greater-than over two
materialized operands, yielding a boolean columnar value; non-integer
operands or a length mismatch are evaluation errors. -/
def eval_gt (l r : ColumnarValue) : Except BallistaError ColumnarValue := do
  let la ← l.to_arrow
  let ra ← r.to_arrow
  match la, ra with
  | .intArr xs, .intArr ys =>
    if xs.length = ys.length then
      .ok (.Columnar (.boolArr (List.zipWith (fun a b => decide (b < a)) xs ys)))
    else .error (.general "eval error: length mismatch in comparison")
  | _, _ => .error (.general "eval error: type mismatch in comparison")

/-- Modelled from the spec: evaluation of a compiled expression against a
batch, pure in (expression, batch); a column reference yields that column
of the batch, a literal yields a scalar broadcast over the row count of
the batch. -/
def CompiledExpr.evaluate : CompiledExpr → ColumnarBatch → Except BallistaError ColumnarValue
  | .col i, b =>
    match b.columns.get? i with
    | some c => .ok c
    | none => .error (.general "eval error: column index out of range")
  | .lit v, b => .ok (.Scalar v b.num_rows)
  | .gt l r, b => do
    let lv ← l.evaluate b
    let rv ← r.evaluate b
    eval_gt lv rv

/-- Modelled from the spec: the child side of the batch stream protocol.
A stream is pulled by exactly one consumer, one call at a time, so its
observable behavior is the sequence of its next() results: nexts k is the
result of the k-th next() call (ok none is the end-of-stream sentinel). -/
structure ColumnarBatchStream where
  schema : Schema
  nexts : Nat → Except BallistaError (Option ColumnarBatch)

/-- Translation of the FilterIter struct from filter.rs: it wraps the
child stream and the compiled predicate (the input_plan field of the
source is dead code and carries no behavior). -/
structure FilterIter where
  input : ColumnarBatchStream
  filter_expr : CompiledExpr

/-- Translation of FilterIter::schema from filter.rs: delegates to the
child stream. -/
def FilterIter.schema (it : FilterIter) : Schema :=
  it.input.schema

/-- The body of FilterIter::next from filter.rs as a function of the one
child next() result it pulls: an upstream error propagates, end-of-stream
propagates, and a batch is filtered by evaluating the predicate and
applying the mask via apply_filter with the child stream schema. -/
def filterNextStep (filter_expr : CompiledExpr)
    (pulled : Except BallistaError (Option ColumnarBatch)) (schema : Schema) :
    Except BallistaError (Option ColumnarBatch) :=
  match pulled with
  | .error e => .error e
  | .ok none => .ok none
  | .ok (some input) => do
    let bools ← filter_expr.evaluate input
    let batch ← apply_filter input bools schema
    .ok (some batch)

/-- Translation of FilterIter::next from filter.rs: FilterIter holds no
pull state of its own and performs exactly one input.next() per call, so
the result of its k-th next() call is filterNextStep applied to the k-th
next() result of the child stream. -/
def FilterIter.next (it : FilterIter) (k : Nat) :
    Except BallistaError (Option ColumnarBatch) :=
  filterNextStep it.filter_expr (it.input.nexts k) it.input.schema

/-- Modelled from the spec: the partitioning descriptor of an operator
(unknown, single, or hash-by-columns over a partition count). -/
inductive Partitioning where
  | unknownPartitioning (partitionCount : Nat)
  | singlePartition
  | hashPartitioning (columns : List Nat) (partitionCount : Nat)
deriving DecidableEq, Repr

/-- Modelled from the spec: the child plan node of the filter, abstracted
to the part of the execution-plan contract the filter reads from it: its
declared schema and output partitioning. -/
structure PlanNode where
  schema : Schema
  output_partitioning : Partitioning
deriving DecidableEq, Repr

/-- Translation of the FilterExec struct from filter.rs: one child plan
and the held uncompiled predicate AST. -/
structure FilterExec where
  child : PlanNode
  filter_expr : Expr
deriving DecidableEq, Repr

/-- Translation of FilterExec::schema from filter.rs: a filter does not
alter the schema, the call delegates to the current child. -/
def FilterExec.schema (f : FilterExec) : Schema :=
  f.child.schema

/-- Translation of FilterExec::output_partitioning from filter.rs:
delegates to the current child. -/
def FilterExec.output_partitioning (f : FilterExec) : Partitioning :=
  f.child.output_partitioning

/-- Translation of FilterExec::children from filter.rs. -/
def FilterExec.children (f : FilterExec) : List PlanNode :=
  [f.child]

/-- Translation of FilterExec::with_new_children from filter.rs: asserts
that exactly one replacement child is given (none is the failed assertion)
and returns a new node with the same predicate and the replacement
child. -/
def FilterExec.with_new_children (f : FilterExec) (new_children : List PlanNode) :
    Option FilterExec :=
  match new_children with
  | [c] => some { filter_expr := f.filter_expr, child := c }
  | _ => none

/-- Observable side effects of FilterExec::execute, used to state that the
child execute is not reached on a compile error. -/
inductive ExecEvent where
  | childExecuteCalled
deriving DecidableEq, Repr

/-- Translation of FilterExec::execute from filter.rs. The child plan is
represented by its execute behavior child_execute, a function of the
execution context handle and the partition index (the filter forwards both
unchanged). The predicate is compiled against the node schema first and a
compile error returns before the child execute is invoked; then the child
is executed and its stream wrapped in a FilterIter. The event list records
whether the child execute was reached. -/
def FilterExec.execute (f : FilterExec)
    (child_execute : Nat → Nat → Except BallistaError ColumnarBatchStream)
    (ctx partition_index : Nat) :
    Except BallistaError FilterIter × List ExecEvent :=
  match compile_expression f.filter_expr f.schema with
  | .error e => (.error e, [])
  | .ok expr =>
    match child_execute ctx partition_index with
    | .error e => (.error e, [.childExecuteCalled])
    | .ok s => (.ok { input := s, filter_expr := expr }, [.childExecuteCalled])

/-- Whether a columnar value is boolean-typed (either a boolean array or a
boolean scalar). -/
def ColumnarValue.isBoolean : ColumnarValue → Bool
  | .Columnar (.boolArr _) => true
  | .Scalar (.bool _) _ => true
  | .Columnar (.intArr _) => false
  | .Scalar (.int _) _ => false

/-- The row positions a boolean mask retains. -/
def trueIndices : List Bool → List Nat
  | [] => []
  | b :: bs => (if b then [0] else []) ++ (trueIndices bs).map (· + 1)

/-- The output of one successful FilterIter.next call is uniformly
filtered: one boolean mask is obtained from the single predicate
evaluation, every output column is the corresponding input column
materialized and filtered with that same mask, and consequently every
output column consists of exactly the input elements at the retained row
positions trueIndices of that one mask. -/
def uniformlyFilteredOutput (it : FilterIter) (k : Nat) (out : ColumnarBatch) : Prop :=
  ∃ (b : ColumnarBatch) (m : ColumnarValue) (bools : List Bool),
    it.input.nexts k = .ok (some b) ∧
    it.filter_expr.evaluate b = .ok m ∧
    (∃ p, m.to_arrow = .ok p ∧ cast_array_boolean p = .ok bools) ∧
    out.columns.length = b.columns.length ∧
    ∀ i, i < b.columns.length →
      ∃ a, (b.columns.getD i default).to_arrow = .ok a ∧
        out.columns.getD i default = .Columnar (filterByMask a bools) ∧
        (filterByMask a bools).toList = (trueIndices bools).filterMap (fun j => a.toList.get? j)

/-- Schema of the concrete scenario of the spec: a single int64 column
named id. -/
def idSchema : Schema := [{ name := "id", dataType := DataType.int64 }]

/-- The predicate AST id > 2 of the concrete scenario. -/
def idGt2 : Expr := .gt (.column "id") (.literal (.int 2))

/-- First input batch of the concrete scenario: id = [1, 2]. -/
def idBatch1 : ColumnarBatch :=
  { columns := [.Columnar (.intArr [1, 2])], schema := idSchema }

/-- Second input batch of the concrete scenario: id = [3, 4]. -/
def idBatch2 : ColumnarBatch :=
  { columns := [.Columnar (.intArr [3, 4])], schema := idSchema }

/-- Child stream of the concrete scenario: yields idBatch1, then idBatch2,
then end-of-stream forever. -/
def idChildStream : ColumnarBatchStream :=
  { schema := idSchema,
    nexts := fun k =>
      match k with
      | 0 => .ok (some idBatch1)
      | 1 => .ok (some idBatch2)
      | _ => .ok none }

/-- The filter stream of the concrete scenario: idGt2 compiled against
idSchema over idChildStream. -/
def idFilterIter : FilterIter :=
  { input := idChildStream, filter_expr := .gt (.col 0) (.lit (.int 2)) }

/-- A predicate AST referencing a column that exists in no schema used
here. -/
def noSuchColumn : Expr := .column "nope"

/-- A concrete child plan node. -/
def planA : PlanNode := { schema := idSchema, output_partitioning := .singlePartition }

/-- A second concrete plan node with a different schema and
partitioning. -/
def planB : PlanNode :=
  { schema := [{ name := "x", dataType := DataType.boolean }],
    output_partitioning := .unknownPartitioning 4 }

/-- A filter node whose predicate references a nonexistent column. -/
def badFilter : FilterExec := { child := planA, filter_expr := noSuchColumn }

/-- A filter node over planA with the id > 2 predicate. -/
def idFilter : FilterExec := { child := planA, filter_expr := idGt2 }

/-- A child execute behavior that always succeeds with the concrete child
stream. -/
def okChildExecute : Nat → Nat → Except BallistaError ColumnarBatchStream :=
  fun _ _ => .ok idChildStream

/-- A batch whose only column is a scalar, for exercising scalar
materialization through the filter. -/
def scalarBatch : ColumnarBatch :=
  { columns := [.Scalar (.int 7) 2], schema := idSchema }

/-- A filter stream whose predicate evaluates to the (non-boolean) id
column itself. -/
def badShapeIter : FilterIter :=
  { input := idChildStream, filter_expr := .col 0 }

/-- A child stream that is at end-of-stream from the first call on. -/
def emptyChildStream : ColumnarBatchStream :=
  { schema := idSchema, nexts := fun _ => .ok none }

/-- The filter stream over the empty child stream. -/
def emptyFilterIter : FilterIter :=
  { input := emptyChildStream, filter_expr := .gt (.col 0) (.lit (.int 2)) }

/-- A child stream whose every next() call fails. -/
def failingChildStream : ColumnarBatchStream :=
  { schema := idSchema, nexts := fun _ => .error (.general "upstream failure") }

/-- The filter stream over the failing child stream. -/
def failingIter : FilterIter :=
  { input := failingChildStream, filter_expr := .gt (.col 0) (.lit (.int 2)) }

/-! Helper lemmas shared by the claim theorems. -/

theorem except_bind_ok {ε α β : Type} (a : α) (f : α → Except ε β) :
    (Except.ok a : Except ε α) >>= f = f a := rfl

theorem except_bind_error {ε α β : Type} (e : ε) (f : α → Except ε β) :
    (Except.error e : Except ε α) >>= f = Except.error e := rfl

theorem maskFilter_map {α β : Type} (f : α → β) (xs : List α) (bs : List Bool) :
    maskFilter (xs.map f) bs = (maskFilter xs bs).map f := by
  induction bs generalizing xs with
  | nil => cases xs <;> simp [maskFilter]
  | cons b bs ih =>
    cases xs with
    | nil => simp [maskFilter]
    | cons x xs => cases b <;> simp [maskFilter, ih]

theorem maskFilter_eq_filterMap {α : Type} (xs : List α) (bs : List Bool) :
    maskFilter xs bs = (trueIndices bs).filterMap (fun i => xs.get? i) := by
  induction bs generalizing xs with
  | nil => cases xs <;> simp [maskFilter, trueIndices]
  | cons b bs ih =>
    cases xs with
    | nil =>
      simp only [maskFilter, trueIndices, List.filterMap_append, List.filterMap_map]
      cases b <;> simp [List.get?]
    | cons x xs =>
      simp only [maskFilter, trueIndices, List.filterMap_append, List.filterMap_map]
      cases b <;> simp [Function.comp_def, List.get?_cons_succ, ih]

theorem maskFilter_eq_nil_of_all_false {α : Type} (xs : List α) (bs : List Bool)
    (h : ∀ b ∈ bs, b = false) : maskFilter xs bs = [] := by
  induction bs generalizing xs with
  | nil => cases xs <;> rfl
  | cons b bs ih =>
    cases xs with
    | nil => rfl
    | cons x xs =>
      have hb : b = false := h b (by simp)
      subst hb
      simpa [maskFilter] using ih xs (fun b hb => h b (by simp [hb]))

theorem filterByMask_toList (a : ArrowArray) (bs : List Bool) :
    (filterByMask a bs).toList = maskFilter a.toList bs := by
  cases a <;> simp [filterByMask, ArrowArray.toList, maskFilter_map]

theorem to_arrow_len (v : ColumnarValue) (a : ArrowArray) (h : v.to_arrow = .ok a) :
    a.len = v.len := by
  cases v with
  | Columnar arr =>
    simp only [ColumnarValue.to_arrow, Except.ok.injEq] at h
    subst h; rfl
  | Scalar s n =>
    cases s <;> simp only [ColumnarValue.to_arrow, Except.ok.injEq] at h <;>
      (subst h; simp [ArrowArray.len, ColumnarValue.len])

theorem arrow_compute_filter_ok (a : ArrowArray) (bs : List Bool) (fa : ArrowArray)
    (h : arrow_compute_filter a bs = .ok fa) :
    a.len = bs.length ∧ fa = filterByMask a bs := by
  unfold arrow_compute_filter at h
  split at h
  · exact ⟨by assumption, by injection h with h; exact h.symm⟩
  · exact absurd h (by simp)

theorem arrow_compute_filter_len_ne (a : ArrowArray) (bs : List Bool)
    (h : a.len ≠ bs.length) :
    arrow_compute_filter a bs =
      .error (.general "filter kernel: array and mask have different lengths") := by
  unfold arrow_compute_filter
  simp [h]

theorem to_arrow_total (v : ColumnarValue) : ∃ a : ArrowArray, v.to_arrow = .ok a := by
  cases v with
  | Columnar a => exact ⟨a, rfl⟩
  | Scalar s n => cases s <;> exact ⟨_, rfl⟩

theorem filterByMask_len_zero (a : ArrowArray) (bools : List Bool)
    (h : ∀ bb ∈ bools, bb = false) : (filterByMask a bools).len = 0 := by
  cases a <;>
    simp [filterByMask, ArrowArray.len, maskFilter_eq_nil_of_all_false _ _ h]

theorem filterColumns_ok_spec (cols : List ColumnarValue) (bools : List Bool)
    (out : List ColumnarValue) (h : filterColumns cols bools = .ok out) :
    out.length = cols.length ∧
    ∀ i, i < cols.length →
      ∃ a : ArrowArray, (cols.getD i default).to_arrow = .ok a ∧
        a.len = bools.length ∧
        out.getD i default = .Columnar (filterByMask a bools) := by
  induction cols generalizing out with
  | nil =>
    simp only [filterColumns, Except.ok.injEq] at h
    subst h
    exact ⟨rfl, by intro i hi; exact absurd hi (by simp)⟩
  | cons c rest ih =>
    cases hta : c.to_arrow with
    | error e =>
      simp only [filterColumns, hta, except_bind_error] at h
      exact absurd h (by simp)
    | ok a =>
      cases hff : arrow_compute_filter a bools with
      | error e =>
        simp only [filterColumns, hta, except_bind_ok, hff, except_bind_error] at h
        exact absurd h (by simp)
      | ok fa =>
        cases hrest : filterColumns rest bools with
        | error e =>
          simp only [filterColumns, hta, except_bind_ok, hff, hrest,
            except_bind_error] at h
          exact absurd h (by simp)
        | ok others =>
          simp only [filterColumns, hta, except_bind_ok, hff, hrest,
            Except.ok.injEq] at h
          subst h
          obtain ⟨hlen, hcols⟩ := ih others hrest
          obtain ⟨hflen, hfa⟩ := arrow_compute_filter_ok a bools fa hff
          refine ⟨by simp [hlen], ?_⟩
          intro i hi
          cases i with
          | zero => exact ⟨a, by simpa using hta, hflen, by simp [hfa]⟩
          | succ i => simpa using hcols i (by simpa using hi)

theorem filterColumns_all_columnar (cols : List ColumnarValue) (bools : List Bool)
    (out : List ColumnarValue) (h : filterColumns cols bools = .ok out) :
    ∀ c ∈ out, ∃ a : ArrowArray, c = .Columnar a := by
  induction cols generalizing out with
  | nil =>
    simp only [filterColumns, Except.ok.injEq] at h
    subst h; simp
  | cons c rest ih =>
    cases hta : c.to_arrow with
    | error e =>
      simp only [filterColumns, hta, except_bind_error] at h
      exact absurd h (by simp)
    | ok a =>
      cases hff : arrow_compute_filter a bools with
      | error e =>
        simp only [filterColumns, hta, except_bind_ok, hff, except_bind_error] at h
        exact absurd h (by simp)
      | ok fa =>
        cases hrest : filterColumns rest bools with
        | error e =>
          simp only [filterColumns, hta, except_bind_ok, hff, hrest,
            except_bind_error] at h
          exact absurd h (by simp)
        | ok others =>
          simp only [filterColumns, hta, except_bind_ok, hff, hrest,
            Except.ok.injEq] at h
          subst h
          intro x hx
          rcases List.mem_cons.mp hx with hx | hx
          · exact ⟨fa, hx⟩
          · exact ih others hrest x hx

theorem filterColumns_head_len_ne (c : ColumnarValue) (rest : List ColumnarValue)
    (bools : List Bool) (a : ArrowArray) (hta : c.to_arrow = .ok a)
    (hne : a.len ≠ bools.length) :
    filterColumns (c :: rest) bools =
      .error (.general "filter kernel: array and mask have different lengths") := by
  simp only [filterColumns, hta, except_bind_ok,
    arrow_compute_filter_len_ne a bools hne, except_bind_error]

theorem apply_filter_ok_spec (b : ColumnarBatch) (m : ColumnarValue) (s : Schema)
    (out : ColumnarBatch) (h : apply_filter b m s = .ok out) :
    ∃ (p : ArrowArray) (bools : List Bool),
      m.to_arrow = .ok p ∧ cast_array_boolean p = .ok bools ∧
      filterColumns b.columns bools = .ok out.columns ∧ out.schema = s := by
  cases hta : m.to_arrow with
  | error e =>
    simp only [apply_filter, hta, except_bind_error] at h
    exact absurd h (by simp)
  | ok p =>
    cases hc : cast_array_boolean p with
    | error e =>
      simp only [apply_filter, hta, except_bind_ok, hc, except_bind_error] at h
      exact absurd h (by simp)
    | ok bools =>
      cases hf : filterColumns b.columns bools with
      | error e =>
        simp only [apply_filter, hta, except_bind_ok, hc, hf, except_bind_error] at h
        exact absurd h (by simp)
      | ok outCols =>
        simp only [apply_filter, hta, except_bind_ok, hc, hf,
          ColumnarBatch.from_values_and_schema, Except.ok.injEq] at h
        subst h
        exact ⟨p, bools, rfl, hc, hf, rfl⟩

theorem apply_filter_error_steps (b : ColumnarBatch) (m : ColumnarValue) (s : Schema) :
    (∀ e, m.to_arrow = .error e → apply_filter b m s = .error e) ∧
    (∀ p e, m.to_arrow = .ok p → cast_array_boolean p = .error e →
      apply_filter b m s = .error e) ∧
    (∀ p bools e, m.to_arrow = .ok p → cast_array_boolean p = .ok bools →
      filterColumns b.columns bools = .error e → apply_filter b m s = .error e) := by
  refine ⟨?_, ?_, ?_⟩
  · intro e h
    simp [apply_filter, h, except_bind_error]
  · intro p e h1 h2
    simp [apply_filter, h1, except_bind_ok, h2, except_bind_error]
  · intro p bools e h1 h2 h3
    simp [apply_filter, h1, except_bind_ok, h2, h3, except_bind_error]

theorem filterNextStep_eval_error (expr : CompiledExpr) (b : ColumnarBatch) (s : Schema)
    (e : BallistaError) (h : expr.evaluate b = .error e) :
    filterNextStep expr (.ok (some b)) s = .error e := by
  simp only [filterNextStep, h, except_bind_error]

theorem filterNextStep_eval_ok (expr : CompiledExpr) (b : ColumnarBatch) (s : Schema)
    (m : ColumnarValue) (h : expr.evaluate b = .ok m) :
    filterNextStep expr (.ok (some b)) s =
      (apply_filter b m s).map some := by
  simp only [filterNextStep, h, except_bind_ok]
  cases happ : apply_filter b m s <;>
    simp [happ, Except.map, except_bind_ok, except_bind_error]

/-! Claim theorems. -/

/-- C1: every batch produced by a successful FilterIter.next call is built
from the single evaluated predicate result: one boolean mask is obtained
from the one evaluation, every column of the input batch is filtered with
that same mask instance, and every output column consists of exactly the
elements of its input column at the one shared list of retained row
positions, so row alignment across columns is preserved. -/
theorem filter_next_uniform_mask (it : FilterIter) (k : Nat) (out : ColumnarBatch)
    (h : it.next k = .ok (some out)) : uniformlyFilteredOutput it k out := by
  rw [FilterIter.next] at h
  cases hpull : it.input.nexts k with
  | error e =>
    rw [hpull] at h
    exact absurd h (by simp [filterNextStep])
  | ok ob =>
    rw [hpull] at h
    cases ob with
    | none => exact absurd h (by simp [filterNextStep])
    | some b =>
      cases heval : it.filter_expr.evaluate b with
      | error e =>
        rw [filterNextStep_eval_error it.filter_expr b it.input.schema e heval] at h
        exact absurd h (by simp)
      | ok m =>
        rw [filterNextStep_eval_ok _ _ _ _ heval] at h
        cases happ : apply_filter b m it.input.schema with
        | error e =>
          rw [happ] at h
          exact absurd h (by simp [Except.map])
        | ok out2 =>
          rw [happ] at h
          have hout : out2 = out := by
            simpa [Except.map] using h
          subst hout
          obtain ⟨p, bools, hp, hc, hf, hs⟩ :=
            apply_filter_ok_spec b m it.input.schema out2 happ
          obtain ⟨hlen, hcols⟩ := filterColumns_ok_spec b.columns bools out2.columns hf
          refine ⟨b, m, bools, hpull, heval, ⟨p, hp, hc⟩, hlen, ?_⟩
          intro i hi
          obtain ⟨a, hta, halen, hcol⟩ := hcols i hi
          exact ⟨a, hta, hcol, by rw [filterByMask_toList, maskFilter_eq_filterMap]⟩

/-- Witness for C1: the second output batch of the concrete id > 2
scenario is uniformly filtered. -/
theorem filter_next_uniform_mask_witness :
    uniformlyFilteredOutput idFilterIter 1
      { columns := [.Columnar (.intArr [3, 4])], schema := idSchema } :=
  filter_next_uniform_mask idFilterIter 1
    { columns := [.Columnar (.intArr [3, 4])], schema := idSchema } (by rfl)

/-- C2: FilterExec.execute compiles the predicate against the node schema
first; when compilation fails, execute returns exactly that compile error
and the child execute is never invoked (the event trace is empty), so no
batch is pulled. -/
theorem filter_execute_compile_fail_fast (f : FilterExec)
    (child_execute : Nat → Nat → Except BallistaError ColumnarBatchStream)
    (ctx partition_index : Nat) (e : BallistaError)
    (h : compile_expression f.filter_expr f.schema = .error e) :
    f.execute child_execute ctx partition_index = (.error e, []) := by
  simp [FilterExec.execute, h]

/-- Witness for C2: a predicate referencing the nonexistent column nope
fails at execute with a compile error and the child is not executed. -/
theorem filter_execute_compile_fail_fast_witness :
    badFilter.execute okChildExecute 0 0 =
      (.error (.general "compile error: no column named nope"), []) :=
  filter_execute_compile_fail_fast badFilter okChildExecute 0 0
    (.general "compile error: no column named nope") (by rfl)

/-- C3: for an input batch (with at least one column, so its row count is
defined), if the evaluated predicate result is not a boolean columnar
value of length equal to the row count of the batch — non-boolean type or
wrong length — then FilterIter.next returns an error and no output batch
is produced: apply_filter itself fails on that batch. -/
theorem filter_next_shape_error (it : FilterIter) (k : Nat) (b : ColumnarBatch)
    (m : ColumnarValue)
    (hpull : it.input.nexts k = .ok (some b))
    (heval : it.filter_expr.evaluate b = .ok m)
    (hne : b.columns ≠ [])
    (hbad : ¬(m.isBoolean = true ∧ m.len = b.num_rows)) :
    ∃ e, it.next k = .error e ∧ apply_filter b m it.input.schema = .error e := by
  have hnext : it.next k = (apply_filter b m it.input.schema).map some := by
    rw [FilterIter.next, hpull]
    exact filterNextStep_eval_ok it.filter_expr b it.input.schema m heval
  obtain ⟨c, rest, hcols⟩ : ∃ c rest, b.columns = c :: rest := by
    cases hb : b.columns with
    | nil => exact absurd hb hne
    | cons c rest => exact ⟨c, rest, rfl⟩
  have hnum : b.num_rows = c.len := by
    simp [ColumnarBatch.num_rows, hcols]
  have pack : ∀ e, apply_filter b m it.input.schema = .error e →
      ∃ e, it.next k = .error e ∧ apply_filter b m it.input.schema = .error e :=
    fun e herr => ⟨e, by rw [hnext, herr]; rfl, herr⟩
  have boolCase : ∀ bs : List Bool, m.to_arrow = .ok (.boolArr bs) →
      bs.length ≠ b.num_rows →
      ∃ e, it.next k = .error e ∧ apply_filter b m it.input.schema = .error e := by
    intro bs hta hlenne
    obtain ⟨a0, ha0⟩ := to_arrow_total c
    have ha0len : a0.len = c.len := to_arrow_len c a0 ha0
    have hcolserr : filterColumns b.columns bs =
        .error (.general "filter kernel: array and mask have different lengths") := by
      rw [hcols]
      refine filterColumns_head_len_ne c rest bs a0 ha0 ?_
      rw [ha0len, ← hnum]
      intro hEq
      exact hlenne hEq.symm
    exact pack _
      ((apply_filter_error_steps b m it.input.schema).2.2 (.boolArr bs) bs _ hta rfl hcolserr)
  cases m with
  | Columnar a =>
    cases a with
    | intArr vs =>
      exact pack _
        ((apply_filter_error_steps b (.Columnar (.intArr vs)) it.input.schema).2.1
          (.intArr vs) _ rfl rfl)
    | boolArr bs =>
      have hlenne : bs.length ≠ b.num_rows := by
        intro hEq
        exact hbad ⟨rfl, hEq⟩
      exact boolCase bs rfl hlenne
  | Scalar s n =>
    cases s with
    | int i =>
      exact pack _
        ((apply_filter_error_steps b (.Scalar (.int i) n) it.input.schema).2.1
          (.intArr (List.replicate n i)) _ rfl rfl)
    | bool bo =>
      have hlenne : (List.replicate n bo).length ≠ b.num_rows := by
        simp only [List.length_replicate]
        intro hEq
        exact hbad ⟨rfl, hEq⟩
      exact boolCase (List.replicate n bo) rfl hlenne

/-- Witness for C3: a predicate evaluating to the non-boolean id column
makes next fail with a shape error on the first batch. -/
theorem filter_next_shape_error_witness :
    ∃ e, badShapeIter.next 0 = .error e ∧
      apply_filter idBatch1 (.Columnar (.intArr [1, 2])) badShapeIter.input.schema =
        .error e :=
  filter_next_shape_error badShapeIter 0 idBatch1 (.Columnar (.intArr [1, 2]))
    (by rfl) (by rfl) (by simp [idBatch1]) (by simp [ColumnarValue.isBoolean])

/-- C4: apply_filter pairs the filtered columns with the schema it is
given — the child stream schema in FilterIter.next — so every output batch
has that original schema, and whenever the input batch carries the child
stream schema the output schema equals the input batch schema: filtering
never alters the schema. -/
theorem filter_schema_invariance :
    (∀ (b : ColumnarBatch) (m : ColumnarValue) (s : Schema) (out : ColumnarBatch),
      apply_filter b m s = .ok out → out.schema = s) ∧
    (∀ (it : FilterIter) (k : Nat) (b out : ColumnarBatch),
      it.input.nexts k = .ok (some b) → it.next k = .ok (some out) →
      out.schema = it.input.schema ∧
        (b.schema = it.input.schema → out.schema = b.schema)) := by
  have base : ∀ (b : ColumnarBatch) (m : ColumnarValue) (s : Schema) (out : ColumnarBatch),
      apply_filter b m s = .ok out → out.schema = s := by
    intro b m s out h
    obtain ⟨p, bools, hp, hc, hf, hs⟩ := apply_filter_ok_spec b m s out h
    exact hs
  refine ⟨base, ?_⟩
  intro it k b out hpull h
  rw [FilterIter.next, hpull] at h
  cases heval : it.filter_expr.evaluate b with
  | error e =>
    rw [filterNextStep_eval_error it.filter_expr b it.input.schema e heval] at h
    exact absurd h (by simp)
  | ok m =>
    rw [filterNextStep_eval_ok it.filter_expr b it.input.schema m heval] at h
    cases happ : apply_filter b m it.input.schema with
    | error e =>
      rw [happ] at h
      exact absurd h (by simp [Except.map])
    | ok out2 =>
      rw [happ] at h
      have hout : out2 = out := by simpa [Except.map] using h
      subst hout
      have hs := base b m it.input.schema out2 happ
      exact ⟨hs, fun hb => by rw [hs, hb]⟩

/-- Witness for C4: the first output batch of the concrete scenario keeps
the child stream schema, which is also the schema of the input batch. -/
theorem filter_schema_invariance_witness :
    (ColumnarBatch.mk [.Columnar (.intArr [])] idSchema).schema =
        idFilterIter.input.schema ∧
      (idBatch1.schema = idFilterIter.input.schema →
        (ColumnarBatch.mk [.Columnar (.intArr [])] idSchema).schema = idBatch1.schema) :=
  filter_schema_invariance.2 idFilterIter 0 idBatch1
    (ColumnarBatch.mk [.Columnar (.intArr [])] idSchema) (by rfl) (by rfl)

/-- C5: a batch on which the predicate selects zero rows still yields an
output batch — with zero rows and the original schema — rather than being
skipped or coalesced; and in the concrete scenario with input batches
id = [1, 2] and id = [3, 4] under the predicate id > 2 (compiled form held
by idFilterIter), the stream yields the empty id batch, then id = [3, 4],
then end-of-stream, one output batch per input batch. -/
theorem filter_zero_row_batch (it : FilterIter) (k : Nat) (b : ColumnarBatch)
    (m : ColumnarValue) (out : ColumnarBatch)
    (hpull : it.input.nexts k = .ok (some b))
    (heval : it.filter_expr.evaluate b = .ok m)
    (happ : apply_filter b m it.input.schema = .ok out)
    (hzero : ∀ (p : ArrowArray) (bools : List Bool), m.to_arrow = .ok p →
      cast_array_boolean p = .ok bools → ∀ bb ∈ bools, bb = false) :
    (it.next k = .ok (some out) ∧ out.num_rows = 0 ∧ out.schema = it.input.schema) ∧
    (compile_expression idGt2 idSchema = .ok idFilterIter.filter_expr ∧
      idFilterIter.next 0 =
        .ok (some { columns := [.Columnar (.intArr [])], schema := idSchema }) ∧
      idFilterIter.next 1 =
        .ok (some { columns := [.Columnar (.intArr [3, 4])], schema := idSchema }) ∧
      ∀ j, 2 ≤ j → idFilterIter.next j = .ok none) := by
  obtain ⟨p, bools, hp, hc, hf, hs⟩ := apply_filter_ok_spec b m it.input.schema out happ
  have hall : ∀ bb ∈ bools, bb = false := hzero p bools hp hc
  obtain ⟨hlen, hcols⟩ := filterColumns_ok_spec b.columns bools out.columns hf
  have hnext : it.next k = .ok (some out) := by
    rw [FilterIter.next, hpull,
      filterNextStep_eval_ok it.filter_expr b it.input.schema m heval, happ]
    rfl
  have hrows : out.num_rows = 0 := by
    cases hoc : out.columns with
    | nil => simp [ColumnarBatch.num_rows, hoc]
    | cons c0 cs =>
      have hpos : 0 < b.columns.length := by
        rw [← hlen, hoc]
        simp
      obtain ⟨a, hta, halen, hcol⟩ := hcols 0 hpos
      have hc0 : c0 = .Columnar (filterByMask a bools) := by
        rw [← hcol, hoc]
        rfl
      rw [ColumnarBatch.num_rows, hoc, hc0]
      exact filterByMask_len_zero a bools hall
  refine ⟨⟨hnext, hrows, hs⟩, by rfl, by rfl, by rfl, ?_⟩
  intro j hj
  cases j with
  | zero => omega
  | succ j =>
    cases j with
    | zero => omega
    | succ j => rfl

/-- Witness for C5: the first batch of the concrete scenario selects zero
rows and next returns the empty batch with the original schema. -/
theorem filter_zero_row_batch_witness :
    (idFilterIter.next 0 =
        .ok (some { columns := [.Columnar (.intArr [])], schema := idSchema }) ∧
      (ColumnarBatch.mk [.Columnar (.intArr [])] idSchema).num_rows = 0 ∧
      (ColumnarBatch.mk [.Columnar (.intArr [])] idSchema).schema =
        idFilterIter.input.schema) ∧
    (compile_expression idGt2 idSchema = .ok idFilterIter.filter_expr ∧
      idFilterIter.next 0 =
        .ok (some { columns := [.Columnar (.intArr [])], schema := idSchema }) ∧
      idFilterIter.next 1 =
        .ok (some { columns := [.Columnar (.intArr [3, 4])], schema := idSchema }) ∧
      ∀ j, 2 ≤ j → idFilterIter.next j = .ok none) :=
  filter_zero_row_batch idFilterIter 0 idBatch1 (.Columnar (.boolArr [false, false]))
    (ColumnarBatch.mk [.Columnar (.intArr [])] idSchema) (by rfl) (by rfl) (by rfl)
    (by
      intro p bools hp hc bb hbb
      simp only [ColumnarValue.to_arrow, Except.ok.injEq] at hp
      subst hp
      simp only [cast_array_boolean, Except.ok.injEq] at hc
      subst hc
      simp only [List.mem_cons, List.not_mem_nil, or_false] at hbb
      rcases hbb with rfl | rfl <;> rfl)

/-- C6: when the child stream reports end-of-stream, FilterIter.next
returns end-of-stream immediately, for every predicate (no evaluation can
influence the result) and with no output batch; hence a child stream that
always reports end-of-stream — in particular an empty child stream — gives
a filter stream that returns end-of-stream on every call, with no
error. -/
theorem filter_eos_propagation :
    (∀ (it : FilterIter) (k : Nat), it.input.nexts k = .ok none →
      it.next k = .ok none) ∧
    (∀ (s : Schema) (e1 e2 : CompiledExpr),
      filterNextStep e1 (.ok none) s = filterNextStep e2 (.ok none) s) ∧
    (∀ (it : FilterIter), (∀ j, it.input.nexts j = .ok none) →
      ∀ j, it.next j = .ok none) := by
  refine ⟨?_, ?_, ?_⟩
  · intro it k h
    rw [FilterIter.next, h]
    rfl
  · intro s e1 e2
    rfl
  · intro it h j
    rw [FilterIter.next, h j]
    rfl

/-- Witness for C6: the filter stream over the empty child stream returns
end-of-stream on the first and on a later call. -/
theorem filter_eos_propagation_witness :
    emptyFilterIter.next 0 = .ok none ∧ emptyFilterIter.next 5 = .ok none :=
  ⟨filter_eos_propagation.1 emptyFilterIter 0 (by rfl),
    filter_eos_propagation.2.2 emptyFilterIter (fun j => by rfl) 5⟩

/-- C7: every error at any step of filter execution is returned to the
immediate caller unchanged: a compile error from execute, a child execute
error, a child stream next error, a predicate evaluation error, a cast
error of the mask, and a kernel filter error inside apply_filter all
surface as exactly the same error value, with no recovery, masking or
retry. -/
theorem filter_error_propagation :
    (∀ (f : FilterExec)
      (child_execute : Nat → Nat → Except BallistaError ColumnarBatchStream)
      (ctx pi : Nat) (e : BallistaError),
      compile_expression f.filter_expr f.schema = .error e →
      (f.execute child_execute ctx pi).1 = .error e) ∧
    (∀ (f : FilterExec)
      (child_execute : Nat → Nat → Except BallistaError ColumnarBatchStream)
      (ctx pi : Nat) (expr : CompiledExpr) (e : BallistaError),
      compile_expression f.filter_expr f.schema = .ok expr →
      child_execute ctx pi = .error e →
      (f.execute child_execute ctx pi).1 = .error e) ∧
    (∀ (it : FilterIter) (k : Nat) (e : BallistaError),
      it.input.nexts k = .error e → it.next k = .error e) ∧
    (∀ (it : FilterIter) (k : Nat) (b : ColumnarBatch) (e : BallistaError),
      it.input.nexts k = .ok (some b) → it.filter_expr.evaluate b = .error e →
      it.next k = .error e) ∧
    (∀ (b : ColumnarBatch) (m : ColumnarValue) (s : Schema) (e : BallistaError),
      m.to_arrow = .error e → apply_filter b m s = .error e) ∧
    (∀ (b : ColumnarBatch) (m : ColumnarValue) (s : Schema) (p : ArrowArray)
      (e : BallistaError),
      m.to_arrow = .ok p → cast_array_boolean p = .error e →
      apply_filter b m s = .error e) ∧
    (∀ (b : ColumnarBatch) (m : ColumnarValue) (s : Schema) (p : ArrowArray)
      (bools : List Bool) (e : BallistaError),
      m.to_arrow = .ok p → cast_array_boolean p = .ok bools →
      filterColumns b.columns bools = .error e → apply_filter b m s = .error e) ∧
    (∀ (it : FilterIter) (k : Nat) (b : ColumnarBatch) (m : ColumnarValue)
      (e : BallistaError),
      it.input.nexts k = .ok (some b) → it.filter_expr.evaluate b = .ok m →
      apply_filter b m it.input.schema = .error e → it.next k = .error e) := by
  refine ⟨?_, ?_, ?_, ?_, ?_, ?_, ?_, ?_⟩
  · intro f child_execute ctx pi e h
    simp [FilterExec.execute, h]
  · intro f child_execute ctx pi expr e hcomp hchild
    simp [FilterExec.execute, hcomp, hchild]
  · intro it k e h
    rw [FilterIter.next, h]
    rfl
  · intro it k b e hpull heval
    rw [FilterIter.next, hpull]
    exact filterNextStep_eval_error it.filter_expr b it.input.schema e heval
  · intro b m s e h
    exact (apply_filter_error_steps b m s).1 e h
  · intro b m s p e h1 h2
    exact (apply_filter_error_steps b m s).2.1 p e h1 h2
  · intro b m s p bools e h1 h2 h3
    exact (apply_filter_error_steps b m s).2.2 p bools e h1 h2 h3
  · intro it k b m e hpull heval happ
    rw [FilterIter.next, hpull,
      filterNextStep_eval_ok it.filter_expr b it.input.schema m heval, happ]
    rfl

/-- Witness for C7: an upstream next error surfaces unchanged from the
filter stream, and a compile error surfaces unchanged from execute. -/
theorem filter_error_propagation_witness :
    failingIter.next 0 = .error (.general "upstream failure") ∧
      (badFilter.execute okChildExecute 1 2).1 =
        .error (.general "compile error: no column named nope") :=
  ⟨filter_error_propagation.2.2.1 failingIter 0 (.general "upstream failure") (by rfl),
    filter_error_propagation.1 badFilter okChildExecute 1 2
      (.general "compile error: no column named nope") (by rfl)⟩

/-- C8: schema and output_partitioning of a filter node delegate to the
current child — they are exactly the child schema and child partitioning —
so after with_new_children replaces the child, the new node reports the
replacement child schema and partitioning. -/
theorem filter_schema_partitioning_passthrough :
    (∀ f : FilterExec,
      f.schema = f.child.schema ∧ f.output_partitioning = f.child.output_partitioning) ∧
    (∀ (f g : FilterExec) (c : PlanNode), f.with_new_children [c] = some g →
      g.schema = c.schema ∧ g.output_partitioning = c.output_partitioning) := by
  constructor
  · intro f
    exact ⟨rfl, rfl⟩
  · intro f g c h
    simp only [FilterExec.with_new_children, Option.some.injEq] at h
    subst h
    exact ⟨rfl, rfl⟩

/-- Witness for C8: replacing the child of badFilter by planB makes the
node report the schema and partitioning of planB. -/
theorem filter_schema_partitioning_passthrough_witness :
    (FilterExec.mk planB noSuchColumn).schema = planB.schema ∧
      (FilterExec.mk planB noSuchColumn).output_partitioning =
        planB.output_partitioning :=
  filter_schema_partitioning_passthrough.2 badFilter
    (FilterExec.mk planB noSuchColumn) planB (by rfl)

/-- C9: with_new_children given exactly one replacement child returns a
new filter node with the same predicate and that child; given a list of
any other length it fails (the failed assertion, modelled as none) rather
than returning a node. -/
theorem filter_with_new_children_spec :
    (∀ (f : FilterExec) (c : PlanNode),
      f.with_new_children [c] = some { child := c, filter_expr := f.filter_expr }) ∧
    (∀ (f : FilterExec) (cs : List PlanNode), cs.length ≠ 1 →
      f.with_new_children cs = none) := by
  constructor
  · intro f c
    rfl
  · intro f cs h
    cases cs with
    | nil => rfl
    | cons c rest =>
      cases rest with
      | nil => exact absurd rfl h
      | cons d rest2 => rfl

/-- Witness for C9: one replacement child is accepted and rebuilt with the
same predicate; zero or two children are rejected. -/
theorem filter_with_new_children_spec_witness :
    badFilter.with_new_children [planB] =
        some { child := planB, filter_expr := badFilter.filter_expr } ∧
      badFilter.with_new_children [] = none ∧
      badFilter.with_new_children [planA, planB] = none :=
  ⟨filter_with_new_children_spec.1 badFilter planB,
    filter_with_new_children_spec.2 badFilter [] (by simp),
    filter_with_new_children_spec.2 badFilter [planA, planB] (by simp)⟩

/-- C10: every batch successfully produced by the filter contains only
materialized Columnar columns — apply_filter wraps every filtered array in
the Columnar variant, even when the corresponding input column was a
Scalar — so no Scalar column ever appears in a filter output batch. -/
theorem filter_output_all_columnar :
    (∀ (b : ColumnarBatch) (m : ColumnarValue) (s : Schema) (out : ColumnarBatch),
      apply_filter b m s = .ok out →
      ∀ c ∈ out.columns, ∃ a : ArrowArray, c = .Columnar a) ∧
    (∀ (it : FilterIter) (k : Nat) (out : ColumnarBatch),
      it.next k = .ok (some out) →
      ∀ c ∈ out.columns, ∃ a : ArrowArray, c = .Columnar a) := by
  have base : ∀ (b : ColumnarBatch) (m : ColumnarValue) (s : Schema) (out : ColumnarBatch),
      apply_filter b m s = .ok out →
      ∀ c ∈ out.columns, ∃ a : ArrowArray, c = .Columnar a := by
    intro b m s out h
    obtain ⟨p, bools, hp, hc, hf, hs⟩ := apply_filter_ok_spec b m s out h
    exact filterColumns_all_columnar b.columns bools out.columns hf
  refine ⟨base, ?_⟩
  intro it k out h
  rw [FilterIter.next] at h
  cases hpull : it.input.nexts k with
  | error e =>
    rw [hpull] at h
    exact absurd h (by simp [filterNextStep])
  | ok ob =>
    rw [hpull] at h
    cases ob with
    | none => exact absurd h (by simp [filterNextStep])
    | some b =>
      cases heval : it.filter_expr.evaluate b with
      | error e =>
        rw [filterNextStep_eval_error it.filter_expr b it.input.schema e heval] at h
        exact absurd h (by simp)
      | ok m =>
        rw [filterNextStep_eval_ok it.filter_expr b it.input.schema m heval] at h
        cases happ : apply_filter b m it.input.schema with
        | error e =>
          rw [happ] at h
          exact absurd h (by simp [Except.map])
        | ok out2 =>
          rw [happ] at h
          have hout : out2 = out := by simpa [Except.map] using h
          subst hout
          exact base b m it.input.schema out2 happ

/-- Witness for C10: filtering a batch whose only column is the scalar 7
broadcast over two rows yields a materialized Columnar int column. -/
theorem filter_output_all_columnar_witness :
    ∃ a : ArrowArray,
      ColumnarValue.Columnar (.intArr [7]) = ColumnarValue.Columnar a :=
  filter_output_all_columnar.1 scalarBatch (.Columnar (.boolArr [true, false])) idSchema
    (ColumnarBatch.mk [.Columnar (.intArr [7])] idSchema) (by rfl)
    (.Columnar (.intArr [7])) (by simp)

end Ballista
